import Mathlib

/-!
# MOVCO quote system — shallow embedding and verification

This file embeds the deterministic core of the MOVCO quote-estimation
pipeline (`src/api.py`) in Lean 4 and proves or refutes the frozen claims
about it.  Python floats are modelled as exact rationals (`ℚ`), Python
`round` (banker's rounding, round-half-to-even) is modelled by
`pyRoundInt`, and Python strings are modelled as `String` / `List Char`.
-/

namespace Movco

/-! ## Python rounding

`pyRoundInt q` models Python's built-in `round(q)` on exact values:
round to nearest integer, ties to the even neighbour.
`round2` / `round1` model `round(q, 2)` / `round(q, 1)`. -/

/-- The floor of a rational, written so that it kernel-reduces; it agrees
with Mathlib's `⌊·⌋` (see `pyFloor_eq`). -/
def pyFloor (q : ℚ) : ℤ := q.num / q.den

def pyRoundInt (q : ℚ) : ℤ :=
  if q - pyFloor q < 1/2 then pyFloor q
  else if 1/2 < q - pyFloor q then pyFloor q + 1
  else if pyFloor q % 2 = 0 then pyFloor q else pyFloor q + 1

def round2 (q : ℚ) : ℚ := (pyRoundInt (q * 100) : ℚ) / 100

def round1 (q : ℚ) : ℚ := (pyRoundInt (q * 10) : ℚ) / 10

/-! ## Pricing constants (src/api.py lines 24-48) -/

def LUTON_VAN_CAPACITY_M3 : ℚ := 35
def SWB_VAN_CAPACITY_M3 : ℚ := 11
def LWB_VAN_CAPACITY_M3 : ℚ := 18

def BASE_RATE : ℚ := 250
def RATE_PER_M3 : ℚ := 35
def RATE_PER_MILE : ℚ := 2
def RATE_PER_VAN_EXTRA : ℚ := 150
def RATE_PER_MOVER_HOUR : ℚ := 25
def MIN_HOURS_ESTIMATE : ℚ := 2
def WEEKEND_PREMIUM : ℚ := 115/100
def STAIRS_SURCHARGE_PER_FLIGHT : ℚ := 50

def ML_LOWER_BOUND_FACTOR : ℚ := 70/100
def ML_UPPER_BOUND_FACTOR : ℚ := 140/100
def MIN_QUOTE : ℚ := 200

/-! ## Van and labour estimation (src/api.py lines 219-303) -/

structure VanInfo where
  van_count : ℤ
  van_type : String
  van_description : String
  capacity_used_pct : ℤ
  deriving DecidableEq

/-- Embeds `calculate_van_count` (src/api.py lines 219-270). -/
def calculate_van_count (total_volume_m3 : ℚ) : VanInfo :=
  if total_volume_m3 ≤ 0 then
    ⟨1, "small", "1 × Small Van (SWB)", 0⟩
  else if total_volume_m3 ≤ SWB_VAN_CAPACITY_M3 then
    ⟨1, "small", "1 × Small Van (SWB, ~11 m³)",
      pyRoundInt ((total_volume_m3 / SWB_VAN_CAPACITY_M3) * 100)⟩
  else if total_volume_m3 ≤ LWB_VAN_CAPACITY_M3 then
    ⟨1, "medium", "1 × Medium Van (LWB, ~18 m³)",
      pyRoundInt ((total_volume_m3 / LWB_VAN_CAPACITY_M3) * 100)⟩
  else if total_volume_m3 ≤ LUTON_VAN_CAPACITY_M3 then
    ⟨1, "large", "1 × Large Van (Luton, ~35 m³)",
      pyRoundInt ((total_volume_m3 / LUTON_VAN_CAPACITY_M3) * 100)⟩
  else
    let van_count : ℤ := ⌈total_volume_m3 / LUTON_VAN_CAPACITY_M3⌉
    let total_capacity : ℚ := (van_count : ℚ) * LUTON_VAN_CAPACITY_M3
    ⟨van_count, "large",
      toString van_count ++ " × Large Van" ++ (if van_count > 1 then ("s") else (""))
        ++ " (Luton, ~35 m³ each)",
      pyRoundInt ((total_volume_m3 / total_capacity) * 100)⟩

/-- Embeds `calculate_movers` (src/api.py lines 273-288); the volume argument is
unused by the source as well. -/
def calculate_movers (van_count : ℤ) (total_volume_m3 : ℚ) : ℤ :=
  if van_count ≤ 1 then 2
  else if van_count = 2 then 3
  else 4

/-- Embeds `estimate_job_hours` (src/api.py lines 291-303). -/
def estimate_job_hours (total_volume_m3 : ℚ) (distance_miles : ℚ) : ℚ :=
  let loading_hours := max (total_volume_m3 / 15) 1
  let driving_hours := max (distance_miles / 30) (1/2)
  let unloading_hours := loading_hours * (8/10)
  let total := loading_hours + driving_hours + unloading_hours
  max total MIN_HOURS_ESTIMATE

/-! ## Rule-based pricing (src/api.py lines 308-366) -/

structure PriceBreakdown where
  base_rate : ℚ
  volume_charge : ℚ
  distance_charge : ℚ
  van_surcharge : ℚ
  labour_charge : ℚ
  stairs_charge : ℚ
  weekend_premium : ℚ
  deriving DecidableEq

structure RulePriceResult where
  total : ℚ
  breakdown : PriceBreakdown
  job_hours : ℚ
  deriving DecidableEq

/-- Embeds `calculate_rule_based_price` (src/api.py lines 308-366). -/
def calculate_rule_based_price (total_volume_m3 : ℚ) (distance_miles : ℚ)
    (van_count : ℤ) (movers : ℤ) (is_weekend : Bool) (stairs_flights : ℤ) :
    RulePriceResult :=
  let base := BASE_RATE
  let volume_charge := total_volume_m3 * RATE_PER_M3
  let distance_charge := distance_miles * RATE_PER_MILE
  let extra_vans : ℤ := max (van_count - 1) 0
  let van_charge := (extra_vans : ℚ) * RATE_PER_VAN_EXTRA
  let job_hours := estimate_job_hours total_volume_m3 distance_miles
  let labour_charge := (movers : ℚ) * job_hours * RATE_PER_MOVER_HOUR
  let stairs_charge := (stairs_flights : ℚ) * STAIRS_SURCHARGE_PER_FLIGHT
  let subtotal := base + volume_charge + distance_charge + van_charge
    + labour_charge + stairs_charge
  let weekend_extra := if is_weekend then subtotal * (WEEKEND_PREMIUM - 1) else 0
  let total₀ := if is_weekend then subtotal + weekend_extra else subtotal
  let total := max total₀ MIN_QUOTE
  { total := round2 total
    breakdown :=
      { base_rate := round2 base
        volume_charge := round2 volume_charge
        distance_charge := round2 distance_charge
        van_surcharge := round2 van_charge
        labour_charge := round2 labour_charge
        stairs_charge := round2 stairs_charge
        weekend_premium := round2 weekend_extra }
    job_hours := round1 job_hours }

/-! ## Hybrid pricing (src/api.py lines 371-398) -/

/-- Embeds `calculate_hybrid_price` (src/api.py lines 371-398).  Returns the final
price and the method tag. -/
def calculate_hybrid_price (ml_prediction : ℚ) (rule_based_price : ℚ) :
    ℚ × String :=
  let lower := rule_based_price * ML_LOWER_BOUND_FACTOR
  let upper := rule_based_price * ML_UPPER_BOUND_FACTOR
  if ml_prediction ≤ 0 then
    (max rule_based_price MIN_QUOTE, "rule_based")
  else if lower ≤ ml_prediction ∧ ml_prediction ≤ upper then
    (max (round2 ml_prediction) MIN_QUOTE, "model")
  else
    let clamped := max lower (min ml_prediction upper)
    (max (round2 clamped) MIN_QUOTE, "hybrid")

/-! ## Distance arithmetic (src/api.py lines 437-452)

Only the pure arithmetic of `get_google_maps_distance` (unit conversion and
rounding of the metres value returned by the Distance Matrix API) is
embedded; the HTTP call around it is an external collaborator. -/

def google_distance_fields (distance_meters : ℚ) : ℚ × ℚ :=
  let distance_km := distance_meters / 1000
  let distance_miles := distance_km * (621371/1000000)
  (round1 distance_km, round1 distance_miles)

/-! ## Python string primitives

Python strings are modelled as `List Char` (built from `String` literals via
`String.data`).  `pyStrip` models `str.strip()` (default whitespace set),
`pyLowerChars` models `str.lower()` on the ASCII range the pipeline uses,
`splitOnNl` models `str.split("\n")`, `rfindIdx` models `str.rfind(c)` for a
character that is known to occur, and `pyIntParse?` models `int(s)` on an
already-stripped string (optional sign, ASCII decimal digits, single
underscores between digits), returning `none` where `int` raises. -/

def pySpaceChar (c : Char) : Bool :=
  c = ' ' || c = '\t' || c = '\n' || c = '\r' || c = '\x0b' || c = '\x0c'

def pyStrip (s : List Char) : List Char :=
  ((s.dropWhile pySpaceChar).reverse.dropWhile pySpaceChar).reverse

def pyLowerChars (s : List Char) : List Char :=
  s.map Char.toLower

def splitOnNl : List Char → List (List Char)
  | [] => [[]]
  | c :: rest =>
    if c = '\n' then [] :: splitOnNl rest
    else
      match splitOnNl rest with
      | [] => [[c]]
      | h :: t => (c :: h) :: t

def rfindIdxGo (c : Char) : List Char → ℕ → Option ℕ
  | [], _ => none
  | a :: rest, i =>
    match rfindIdxGo c rest (i + 1) with
    | some j => some j
    | none => if a = c then some i else none

def rfindIdx (c : Char) (s : List Char) : Option ℕ :=
  rfindIdxGo c s 0

def startsWithChars : List Char → List Char → Bool
  | [], _ => true
  | _ :: _, [] => false
  | a :: as, b :: bs => a = b && startsWithChars as bs

/-- Models `needle in haystack` for Python strings: contiguous-substring test. -/
def containsSub (needle : List Char) : List Char → Bool
  | [] => needle.isEmpty
  | c :: rest => startsWithChars needle (c :: rest) || containsSub needle rest

def digitVal (c : Char) : ℕ := c.toNat - 48

def pyDigitsGo : ℕ → List Char → Option ℕ
  | acc, [] => some acc
  | acc, '_' :: c :: rest =>
    if c.isDigit then pyDigitsGo (acc * 10 + digitVal c) rest else none
  | acc, c :: rest =>
    if c.isDigit then pyDigitsGo (acc * 10 + digitVal c) rest else none

def pyDigits : List Char → Option ℕ
  | [] => none
  | c :: rest => if c.isDigit then pyDigitsGo (digitVal c) rest else none

def pyIntParse? : List Char → Option ℤ
  | '+' :: rest => (pyDigits rest).map (fun n => (n : ℤ))
  | '-' :: rest => (pyDigits rest).map (fun n => -(n : ℤ))
  | rest => (pyDigits rest).map (fun n => (n : ℤ))

/-! ## Furniture volume table (src/api.py lines 139-204)

The Python `dict` literal has pairwise-distinct keys, so membership /
indexing coincide with first-match association-list lookup, and `dict`
iteration order is the insertion order written here. -/

def FURNITURE_VOLUMES : List (String × ℚ) := [
  ("sofa", 50),
  ("3-seater sofa", 60),
  ("2-seater sofa", 45),
  ("loveseat", 40),
  ("sectional sofa", 80),
  ("armchair", 30),
  ("recliner", 35),
  ("bed", 70),
  ("queen bed", 70),
  ("king bed", 85),
  ("double bed", 65),
  ("single bed", 50),
  ("bunk bed", 80),
  ("dining table", 45),
  ("coffee table", 15),
  ("side table", 8),
  ("end table", 8),
  ("console table", 20),
  ("desk", 35),
  ("office desk", 40),
  ("dresser", 45),
  ("chest of drawers", 40),
  ("wardrobe", 65),
  ("armoire", 70),
  ("bookshelf", 35),
  ("bookcase", 40),
  ("tv stand", 25),
  ("entertainment center", 50),
  ("nightstand", 10),
  ("bedside table", 10),
  ("dining chair", 8),
  ("office chair", 12),
  ("bar stool", 6),
  ("ottoman", 12),
  ("cabinet", 30),
  ("filing cabinet", 15),
  ("china cabinet", 45),
  ("sideboard", 40),
  ("credenza", 35),
  ("bench", 15),
  ("footstool", 5),
  ("mirror", 5),
  ("large mirror", 8),
  ("lamp", 3),
  ("floor lamp", 4),
  ("mattress", 30),
  ("box spring", 30),
  ("rug", 5),
  ("large rug", 10),
  ("tv", 8),
  ("large tv", 12),
  ("refrigerator", 55),
  ("washing machine", 30),
  ("dryer", 30),
  ("dishwasher", 25),
  ("microwave", 4),
  ("boxes", 3),
  ("storage box", 3),
  ("bin", 2),
  ("plant", 5),
  ("large plant", 10),
  ("bicycle", 15),
  ("treadmill", 40),
  ("exercise equipment", 20)]

/-- The normalised lookup key: `item_name.lower().strip()`. -/
def normChars (item_name : String) : List Char :=
  pyStrip (pyLowerChars item_name.data)

/-- Embeds `estimate_item_volume` (src/api.py lines 207-214): `item_lower`
is `normChars item_name`. -/
def estimate_item_volume (item_name : String) : ℚ :=
  match FURNITURE_VOLUMES.find? (fun p => p.1.data = normChars item_name) with
  | some p => p.2
  | none =>
    match FURNITURE_VOLUMES.find? (fun p =>
        containsSub p.1.data (normChars item_name)
          || containsSub (normChars item_name) p.1.data) with
    | some p => p.2
    | none => 15

/-! ## Vision response parsing (src/api.py lines 551-583)

The deterministic text-parsing core of `analyze_room_with_claude`: the
surrounding image download and vision API call are external collaborators.
Each line is stripped; non-bullet lines are skipped; the body after the
leading `-` is re-stripped, and the name/quantity are extracted around the
last `(` and last `)`. -/

structure DetectedItem where
  label : String
  quantity : ℤ
  volume_ft3 : ℚ
  deriving DecidableEq

/-- The stripped body of a bullet line, or `none` for skipped lines
(`if not line or not line.startswith("-"): continue` then
`line = line[1:].strip()`). -/
def bulletBody? (line : List Char) : Option (List Char) :=
  match pyStrip line with
  | '-' :: rest => some (pyStrip rest)
  | _ => none

/-- The stripped text between the last `(` and the last `)` when the body
contains both, i.e. `line[line.rfind("(") + 1 : line.rfind(")")].strip()`. -/
def qtyText? (body : List Char) : Option (List Char) :=
  if body.contains '(' && body.contains ')' then
    let i := (rfindIdx '(' body).getD 0
    let j := (rfindIdx ')' body).getD 0
    some (pyStrip ((body.drop (i + 1)).take (j - (i + 1))))
  else none

/-- The item name: `line[: line.rfind("(")].strip()` when both parentheses
are present, the whole body otherwise. -/
def parsedName (body : List Char) : List Char :=
  if body.contains '(' && body.contains ')' then
    pyStrip (body.take ((rfindIdx '(' body).getD 0))
  else body

/-- The quantity: `int(quantity_str)` with fallback 1 on parse failure, and
1 when no parenthesised quantity is present. -/
def parsedQty (body : List Char) : ℤ :=
  match qtyText? body with
  | some t => (pyIntParse? t).getD 1
  | none => 1

def parseLine? (line : List Char) : Option (String × ℤ) :=
  (bulletBody? line).map (fun b => (String.mk (parsedName b), parsedQty b))

/-- One parsed line's unrounded volume contribution:
`item_volume = unit_volume * quantity`. -/
def lineVolume (p : String × ℤ) : ℚ :=
  estimate_item_volume p.1 * (p.2 : ℚ)

/-- The parsing loop of `analyze_room_with_claude` (src/api.py lines
554-583): returns the per-photo item list and `total_volume_ft3`.  Items
store `round(item_volume, 2)`; the running total accumulates the unrounded
volumes and is rounded once at the return. -/
def parse_vision_text (response_text : String) : List DetectedItem × ℚ :=
  let parsed := (splitOnNl response_text.data).filterMap parseLine?
  (parsed.map (fun p => ⟨p.1, p.2, round2 (lineVolume p)⟩),
   round2 ((parsed.map lineVolume).sum))

/-! ## Item aggregation (src/api.py lines 591-626)

The Python ordered `dict` keyed by label is modelled as an association
list updated in place (first matching key) and extended at the tail, which
is exactly `dict` insertion-order semantics. -/

structure AiItem where
  name : String
  quantity : ℤ
  note : Option String
  estimated_volume_ft3 : ℚ
  deriving DecidableEq

structure PhotoResult where
  items : List DetectedItem
  total_volume_ft3 : ℚ
  deriving DecidableEq

/-- Models `label_data[label] += …` / `label_data[label] = …` on the ordered map. -/
def insertLabel : List (String × ℤ × ℚ) → DetectedItem → List (String × ℤ × ℚ)
  | [], it => [(it.label, it.quantity, it.volume_ft3)]
  | p :: rest, it =>
    if p.1 = it.label then
      (p.1, p.2.1 + it.quantity, p.2.2 + it.volume_ft3) :: rest
    else
      p :: insertLabel rest it

def fallbackAiItem : AiItem :=
  ⟨"Miscellaneous items", 10,
    some ("No specific items detected - using fallback estimate"), 30⟩

/-- The flattened item stream, in the order Python's nested
`for result in all_results: for item in result["items"]:` visits it. -/
def allItems (rs : List PhotoResult) : List DetectedItem :=
  (rs.map (fun r => r.items)).flatten

/-- Embeds `aggregate_items_and_volume` (src/api.py lines 591-626). -/
def aggregate_items_and_volume (all_results : List PhotoResult) :
    List AiItem × ℚ :=
  let total_volume_ft3 := (all_results.map (fun r => r.total_volume_ft3)).sum
  let label_data := (allItems all_results).foldl insertLabel []
  let items := label_data.map
    (fun p => AiItem.mk p.1 p.2.1 none (round2 p.2.2))
  if items.isEmpty then ([fallbackAiItem], 30)
  else (items, total_volume_ft3)

/-! ## Specification vocabulary for the aggregator

`firstSeen` is the first-occurrence order of labels, `sumQty` / `sumVol`
the per-label sums over the flat item stream, and `lookupQV` the
(quantity, volume) association lookup on the merge accumulator.  These are
used to state what the aggregator's ordered-dict fold computes. -/

def labelKeys (acc : List (String × ℤ × ℚ)) : List String :=
  acc.map (fun p => p.1)

def firstSeenGo (seen : List String) : List String → List String
  | [] => seen
  | l :: ls =>
    if l ∈ seen then firstSeenGo seen ls else firstSeenGo (seen ++ [l]) ls

def firstSeen (ls : List String) : List String := firstSeenGo [] ls

def sumQty (its : List DetectedItem) (l : String) : ℤ :=
  ((its.filter (fun i => i.label = l)).map (fun i => i.quantity)).sum

def sumVol (its : List DetectedItem) (l : String) : ℚ :=
  ((its.filter (fun i => i.label = l)).map (fun i => i.volume_ft3)).sum

def lookupQV (acc : List (String × ℤ × ℚ)) (l : String) : Option (ℤ × ℚ) :=
  (acc.find? (fun p => p.1 = l)).map (fun p => p.2)

/-! ## Helper lemmas -/

theorem pyFloor_eq (q : ℚ) : pyFloor q = ⌊q⌋ := Rat.floor_def.symm

theorem round2_intCast (k : ℤ) : round2 ((k : ℚ)) = k := by
  unfold round2 pyRoundInt
  have h1 : ((k : ℚ)) * 100 = ((k * 100 : ℤ) : ℚ) := by push_cast; ring
  rw [h1, pyFloor_eq, Int.floor_intCast]
  norm_num

theorem pyRoundInt_nonneg (q : ℚ) (h : 0 ≤ q) : 0 ≤ pyRoundInt q := by
  unfold pyRoundInt
  have hf : (0 : ℤ) ≤ pyFloor q := by
    rw [pyFloor_eq]
    exact Int.floor_nonneg.mpr h
  split_ifs <;> omega

theorem round2_nonneg (q : ℚ) (h : 0 ≤ q) : 0 ≤ round2 q := by
  unfold round2
  have h100 : (0 : ℚ) ≤ q * 100 := by positivity
  have := pyRoundInt_nonneg (q * 100) h100
  positivity

theorem furniture_vals : ∀ p ∈ FURNITURE_VOLUMES, p.2.den = 1 ∧ 1 ≤ p.2 := by
  decide

/-- Every unit volume the estimator can return is an integer ≥ 1. -/
theorem estimate_item_volume_int (s : String) :
    ∃ k : ℤ, 1 ≤ k ∧ estimate_item_volume s = (k : ℚ) := by
  have hval : ∀ p : String × ℚ, p ∈ FURNITURE_VOLUMES →
      ∃ k : ℤ, 1 ≤ k ∧ p.2 = (k : ℚ) := by
    intro p hp
    obtain ⟨hden, hge⟩ := furniture_vals p hp
    refine ⟨p.2.num, ?_, ((Rat.den_eq_one_iff p.2).mp hden).symm⟩
    have : ((1 : ℤ) : ℚ) ≤ (p.2.num : ℚ) := by
      rw [(Rat.den_eq_one_iff p.2).mp hden]
      exact_mod_cast hge
    exact_mod_cast this
  unfold estimate_item_volume
  cases h1 : FURNITURE_VOLUMES.find? (fun p => p.1.data = normChars s) with
  | some p => exact hval p (List.mem_of_find?_eq_some h1)
  | none =>
    cases h2 : FURNITURE_VOLUMES.find? (fun p =>
        containsSub p.1.data (normChars s)
          || containsSub (normChars s) p.1.data) with
    | some p => exact hval p (List.mem_of_find?_eq_some h2)
    | none => exact ⟨15, by norm_num, by norm_num⟩

theorem round2_int_mul (k q : ℤ) : round2 ((k : ℚ) * (q : ℚ)) = (k : ℚ) * q := by
  have h : ((k : ℚ)) * (q : ℚ) = ((k * q : ℤ) : ℚ) := by push_cast; ring
  rw [h, round2_intCast, Int.cast_mul]

theorem pyRoundInt_intCast (k : ℤ) : pyRoundInt ((k : ℚ)) = k := by
  unfold pyRoundInt
  rw [pyFloor_eq, Int.floor_intCast]
  norm_num

/-- Python `round(q, 2)` is the identity on exact 2-decimal values. -/
theorem round2_of_hundredths (q : ℚ) (k : ℤ) (h : q * 100 = (k : ℚ)) :
    round2 q = q := by
  unfold round2
  rw [h, pyRoundInt_intCast, ← h]
  field_simp

/-! ### Aggregator fold lemmas -/

theorem sumQty_cons (it : DetectedItem) (rest : List DetectedItem) (l : String) :
    sumQty (it :: rest) l
      = (if it.label = l then it.quantity else 0) + sumQty rest l := by
  unfold sumQty
  by_cases h : it.label = l <;> simp [List.filter_cons, h]

theorem sumVol_cons (it : DetectedItem) (rest : List DetectedItem) (l : String) :
    sumVol (it :: rest) l
      = (if it.label = l then it.volume_ft3 else 0) + sumVol rest l := by
  unfold sumVol
  by_cases h : it.label = l <;> simp [List.filter_cons, h]

theorem sumVol_int (its : List DetectedItem) (l : String)
    (h : ∀ i ∈ its, ∃ k : ℤ, i.volume_ft3 * 100 = (k : ℚ)) :
    ∃ k : ℤ, sumVol its l * 100 = (k : ℚ) := by
  induction its with
  | nil => exact ⟨0, by simp [sumVol]⟩
  | cons it rest ih =>
    obtain ⟨k2, hk2⟩ := ih (fun i hi => h i (List.mem_cons_of_mem it hi))
    rw [sumVol_cons]
    by_cases hl : it.label = l
    · obtain ⟨k1, hk1⟩ := h it (List.mem_cons_self it rest)
      exact ⟨k1 + k2, by rw [if_pos hl, add_mul, hk1, hk2]; push_cast; ring⟩
    · exact ⟨k2, by rw [if_neg hl, zero_add]; exact hk2⟩

theorem lookupQV_insertLabel_self (acc : List (String × ℤ × ℚ))
    (it : DetectedItem) :
    lookupQV (insertLabel acc it) it.label =
      some (match lookupQV acc it.label with
        | some qv => (qv.1 + it.quantity, qv.2 + it.volume_ft3)
        | none => (it.quantity, it.volume_ft3)) := by
  induction acc with
  | nil => simp [insertLabel, lookupQV]
  | cons p rest ih =>
    by_cases h : p.1 = it.label
    · unfold insertLabel lookupQV
      rw [if_pos h, List.find?_cons_of_pos _ (by simp [h]),
        List.find?_cons_of_pos _ (by simp [h])]
      simp
    · unfold insertLabel lookupQV
      rw [if_neg h, List.find?_cons_of_neg _ (by simp [h]),
        List.find?_cons_of_neg _ (by simp [h])]
      exact ih

theorem lookupQV_insertLabel_other (acc : List (String × ℤ × ℚ))
    (it : DetectedItem) (l : String) (h : it.label ≠ l) :
    lookupQV (insertLabel acc it) l = lookupQV acc l := by
  induction acc with
  | nil =>
    simp [insertLabel, lookupQV, List.find?, h]
  | cons p rest ih =>
    by_cases hp : p.1 = it.label
    · unfold insertLabel lookupQV
      rw [if_pos hp, List.find?_cons_of_neg _ (by simp [hp, h]),
        List.find?_cons_of_neg _ (by simp [hp, h])]
    · unfold insertLabel lookupQV
      rw [if_neg hp]
      by_cases hl : p.1 = l
      · rw [List.find?_cons_of_pos _ (by simp [hl]),
          List.find?_cons_of_pos _ (by simp [hl])]
      · rw [List.find?_cons_of_neg _ (by simp [hl]),
          List.find?_cons_of_neg _ (by simp [hl])]
        exact ih

theorem lookupQV_foldl (its : List DetectedItem)
    (acc : List (String × ℤ × ℚ)) (l : String) :
    lookupQV (its.foldl insertLabel acc) l =
      match lookupQV acc l with
      | some qv => some (qv.1 + sumQty its l, qv.2 + sumVol its l)
      | none =>
        if its.any (fun i => i.label = l) then
          some (sumQty its l, sumVol its l)
        else none := by
  induction its generalizing acc with
  | nil =>
    cases h : lookupQV acc l <;> simp [sumQty, sumVol, h]
  | cons it rest ih =>
    rw [List.foldl_cons, ih]
    by_cases hl : it.label = l
    · subst hl
      rw [lookupQV_insertLabel_self]
      have hq : sumQty (it :: rest) it.label
          = it.quantity + sumQty rest it.label := by
        rw [sumQty_cons, if_pos rfl]
      have hv : sumVol (it :: rest) it.label
          = it.volume_ft3 + sumVol rest it.label := by
        rw [sumVol_cons, if_pos rfl]
      have hany : ((it :: rest).any fun i => i.label = it.label) = true := by
        simp
      cases h : lookupQV acc it.label with
      | some qv =>
        simp only [hq, hv, Option.some.injEq, Prod.mk.injEq]
        constructor <;> ring
      | none =>
        simp only [hq, hv, hany, eq_self_iff_true, if_true,
          Option.some.injEq, Prod.mk.injEq]
    · rw [lookupQV_insertLabel_other acc it l hl]
      have hq : sumQty (it :: rest) l = sumQty rest l := by
        rw [sumQty_cons, if_neg hl, zero_add]
      have hv : sumVol (it :: rest) l = sumVol rest l := by
        rw [sumVol_cons, if_neg hl, zero_add]
      have hany : ((it :: rest).any fun i => i.label = l)
          = (rest.any fun i => i.label = l) := by
        simp [hl]
      rw [hq, hv, hany]

theorem labelKeys_insertLabel (acc : List (String × ℤ × ℚ))
    (it : DetectedItem) :
    labelKeys (insertLabel acc it)
      = if it.label ∈ labelKeys acc then labelKeys acc
        else labelKeys acc ++ [it.label] := by
  induction acc with
  | nil => simp [insertLabel, labelKeys]
  | cons p rest ih =>
    unfold insertLabel
    by_cases h : p.1 = it.label
    · rw [if_pos h]
      have hm : it.label ∈ labelKeys (p :: rest) := by
        simp [labelKeys, h.symm]
      rw [if_pos hm]
      simp [labelKeys]
    · rw [if_neg h]
      have hstep : labelKeys (p :: insertLabel rest it)
          = p.1 :: labelKeys (insertLabel rest it) := rfl
      have hsplit : labelKeys (p :: rest) = p.1 :: labelKeys rest := rfl
      rw [hstep, ih]
      by_cases hr : it.label ∈ labelKeys rest
      · rw [if_pos hr, if_pos (by rw [hsplit]; exact List.mem_cons_of_mem _ hr),
          hsplit]
      · have hnm : it.label ∉ labelKeys (p :: rest) := by
          rw [hsplit]
          intro hx
          rcases List.mem_cons.mp hx with h1 | h1
          · exact h h1.symm
          · exact hr h1
        rw [if_neg hr, if_neg hnm, hsplit]
        rfl

theorem labelKeys_foldl (its : List DetectedItem)
    (acc : List (String × ℤ × ℚ)) :
    labelKeys (its.foldl insertLabel acc)
      = firstSeenGo (labelKeys acc) (its.map (fun i => i.label)) := by
  induction its generalizing acc with
  | nil => rfl
  | cons it rest ih =>
    rw [List.foldl_cons, ih, List.map_cons, labelKeys_insertLabel]
    by_cases h : it.label ∈ labelKeys acc <;> simp [firstSeenGo, h]

theorem firstSeenGo_eq_nil (ls : List String) :
    ∀ seen, firstSeenGo seen ls = [] → seen = [] ∧ ls = [] := by
  induction ls with
  | nil => exact fun seen h => ⟨h, rfl⟩
  | cons l rest ih =>
    intro seen h
    unfold firstSeenGo at h
    by_cases hm : l ∈ seen
    · rw [if_pos hm] at h
      obtain ⟨h1, _⟩ := ih seen h
      subst h1
      simp at hm
    · rw [if_neg hm] at h
      obtain ⟨h1, _⟩ := ih (seen ++ [l]) h
      simp at h1

theorem mem_firstSeenGo (ls : List String) :
    ∀ seen l, l ∈ firstSeenGo seen ls → l ∈ seen ∨ l ∈ ls := by
  induction ls with
  | nil => exact fun seen l h => Or.inl h
  | cons a rest ih =>
    intro seen l h
    unfold firstSeenGo at h
    by_cases hm : a ∈ seen
    · rw [if_pos hm] at h
      rcases ih seen l h with h1 | h1
      · exact Or.inl h1
      · exact Or.inr (List.mem_cons_of_mem a h1)
    · rw [if_neg hm] at h
      rcases ih (seen ++ [a]) l h with h1 | h1
      · rcases List.mem_append.mp h1 with h2 | h2
        · exact Or.inl h2
        · simp at h2
          exact Or.inr (by rw [h2]; exact List.mem_cons_self _ _)
      · exact Or.inr (List.mem_cons_of_mem a h1)

end Movco

namespace Movco

/-! ## Claim theorems -/

/-- C1: for every `rule_based_price R > 0` and every `ml_prediction`, the
Hybrid Price Reconciler returns `(max(R, 200), "rule_based")` when
`ml_prediction ≤ 0`; `(max(round(ml_prediction, 2), 200), "model")` when
`0.70·R ≤ ml_prediction ≤ 1.40·R`; and otherwise
`(max(round(c, 2), 200), "hybrid")` with `c` the prediction clamped into
`[0.70·R, 1.40·R]`. -/
theorem claim1_hybrid_reconciler (R ml : ℚ) (hR : 0 < R) :
    (ml ≤ 0 → calculate_hybrid_price ml R = (max R 200, "rule_based")) ∧
    (¬ ml ≤ 0 → (70/100) * R ≤ ml → ml ≤ (140/100) * R →
      calculate_hybrid_price ml R = (max (round2 ml) 200, "model")) ∧
    (¬ ml ≤ 0 → ¬ ((70/100) * R ≤ ml ∧ ml ≤ (140/100) * R) →
      calculate_hybrid_price ml R =
        (max (round2 (max ((70/100) * R) (min ml ((140/100) * R)))) 200,
          "hybrid")) := by
  unfold calculate_hybrid_price ML_LOWER_BOUND_FACTOR ML_UPPER_BOUND_FACTOR
    MIN_QUOTE
  have hl : R * (70/100) = (70/100) * R := mul_comm _ _
  have hu : R * (140/100) = (140/100) * R := mul_comm _ _
  rw [hl, hu]
  refine ⟨fun h => by rw [if_pos h], fun h h1 h2 => ?_, fun h h2 => ?_⟩
  · rw [if_neg h, if_pos ⟨h1, h2⟩]
  · rw [if_neg h, if_neg h2]

/-- Witness for C1 at `R = 300`, `ml = 300` (the in-bounds "model" case). -/
theorem claim1_witness :
    (0 : ℚ) < 300 ∧ ¬ (300 : ℚ) ≤ 0 ∧ (70/100) * (300 : ℚ) ≤ 300 ∧
      (300 : ℚ) ≤ (140/100) * 300 ∧
      calculate_hybrid_price 300 300 = (max (round2 (300 : ℚ)) 200, "model") :=
  ⟨by norm_num, by norm_num, by norm_num, by norm_num,
    ((claim1_hybrid_reconciler 300 300 (by norm_num)).2.1 (by norm_num)
      (by norm_num) (by norm_num))⟩

/-- C2's counterexample: with volume 0, distance 0, 1 van, 2 movers, no
weekend, no stairs, the Rule-Based Pricer returns total 365.0, not the
claimed 350.0 — `estimate_job_hours 0 0 = 2.3`, so the labour charge is
`2 × 2.3 × 25 = 115`, not `2 × 2.0 × 25 = 100`. -/
theorem claim2_counterexample :
    (calculate_rule_based_price 0 0 1 2 false 0).total = 365 ∧
      (365 : ℚ) ≠ 350 := by
  constructor
  · with_unfolding_all decide
  · norm_num

/-- C2 amended: the Rule-Based Pricer called with volume 0, distance 0,
1 van, 2 movers, weekday, 0 stairs returns total 365.0 =
max(250 + 0 + 0 + 0 + 2×2.3×25, 200), with job_hours = 2.3 (the 2.0-hour
minimum does not bind). -/
theorem claim2_amended :
    (calculate_rule_based_price 0 0 1 2 false 0).total =
        max (250 + 0 + 0 + 0 + 2 * (23/10) * 25) 200 ∧
      (calculate_rule_based_price 0 0 1 2 false 0).job_hours = 23/10 ∧
      estimate_job_hours 0 0 = 23/10 := by
  refine ⟨by with_unfolding_all decide, by with_unfolding_all decide,
    by with_unfolding_all decide⟩

/-- C3's counterexample: at volume 0, distance 0.001 miles, 1 van, 2
movers, weekday, 0 stairs, the claimed formula gives 365.002 but the
returned total is the 2-decimal rounding 365.0 — the claim omits the final
rounding of the total. -/
theorem claim3_counterexample :
    (calculate_rule_based_price 0 (1/1000) 1 2 false 0).total ≠
      max ((250 + 0 * 35 + (1/1000) * 2 + ((max ((1 : ℤ) - 1) 0 : ℤ) : ℚ) * 150
        + (2 : ℚ) * estimate_job_hours 0 (1/1000) * 25 + (0 : ℚ) * 50) * 1)
        200 := by
  with_unfolding_all decide

/-- C3 amended: for all non-negative volume `v`, distance `d`, van count
`n ≥ 1`, movers `m`, stairs `s` and weekend flag `w`, the Rule-Based
Pricer's total equals the 2-decimal rounding of
`max((250 + v·35 + d·2 + max(n−1,0)·150 + m·job_hours·25 + s·50) ·
(1.15 if w else 1), 200)`, with `job_hours` as claimed; the weekend factor
1.15 multiplies the pre-premium subtotal exactly once. -/
theorem claim3_amended (v d : ℚ) (n m s : ℤ) (w : Bool)
    (hv : 0 ≤ v) (hd : 0 ≤ d) (hn : 1 ≤ n) :
    (calculate_rule_based_price v d n m w s).total =
      round2 (max ((250 + v * 35 + d * 2 + ((max (n - 1) 0 : ℤ) : ℚ) * 150
          + (m : ℚ) * estimate_job_hours v d * 25 + (s : ℚ) * 50)
        * (if w then 115/100 else 1)) 200) ∧
    estimate_job_hours v d
      = max (max (v / 15) 1 + max (d / 30) (1/2) + (8/10) * max (v / 15) 1)
          2 := by
  constructor
  · unfold calculate_rule_based_price BASE_RATE RATE_PER_M3 RATE_PER_MILE
      RATE_PER_VAN_EXTRA RATE_PER_MOVER_HOUR STAIRS_SURCHARGE_PER_FLIGHT
      WEEKEND_PREMIUM MIN_QUOTE
    cases w
    · simp only [Bool.false_eq_true, if_false, mul_one]
    · simp only [if_true]
      congr 1
      congr 1
      ring
  · unfold estimate_job_hours MIN_HOURS_ESTIMATE
    ring_nf

/-- Witness for C3 amended at `v = 10`, `d = 20`, `n = 2`, `m = 3`,
`s = 1`, weekend. -/
theorem claim3_witness :
    (0 : ℚ) ≤ 10 ∧ (0 : ℚ) ≤ 20 ∧ (1 : ℤ) ≤ 2 ∧
      (calculate_rule_based_price 10 20 2 3 true 1).total =
        round2 (max ((250 + 10 * 35 + 20 * 2
            + ((max ((2 : ℤ) - 1) 0 : ℤ) : ℚ) * 150
            + (3 : ℚ) * estimate_job_hours 10 20 * 25 + (1 : ℚ) * 50)
          * (if true then 115/100 else 1)) 200) :=
  ⟨by norm_num, by norm_num, by norm_num,
    (claim3_amended 10 20 2 3 1 true (by norm_num) (by norm_num)
      (by norm_num)).1⟩

/-- C8's counterexample: the `job_hours` field is rounded to 1 decimal
place, not 2: at volume 16.5 m³ and distance 0 the unrounded job time is
2.48 hours, the returned field is 2.5. -/
theorem claim8_counterexample :
    (calculate_rule_based_price (33/2) 0 1 2 false 0).job_hours ≠
        round2 (estimate_job_hours (33/2) 0) ∧
      (calculate_rule_based_price (33/2) 0 1 2 false 0).job_hours = 5/2 ∧
      round2 (estimate_job_hours (33/2) 0) = 62/25 := by
  refine ⟨by with_unfolding_all decide, by with_unfolding_all decide,
    by with_unfolding_all decide⟩

/-- C8 amended: derived numeric fields are rounded at the point of
computation, but not uniformly to 2 decimal places: the price total and
every breakdown field are rounded to 2 d.p., while `job_hours` and the
distance fields (`distance_km`, `distance_miles`) are rounded to 1 d.p. -/
theorem claim8_amended (v d : ℚ) (n m s : ℤ) (w : Bool) (meters : ℚ) :
    (calculate_rule_based_price v d n m w s).job_hours
        = round1 (estimate_job_hours v d) ∧
      (calculate_rule_based_price v d n m w s).breakdown.base_rate
        = round2 250 ∧
      (calculate_rule_based_price v d n m w s).breakdown.volume_charge
        = round2 (v * 35) ∧
      (calculate_rule_based_price v d n m w s).breakdown.distance_charge
        = round2 (d * 2) ∧
      (calculate_rule_based_price v d n m w s).breakdown.van_surcharge
        = round2 (((max (n - 1) 0 : ℤ) : ℚ) * 150) ∧
      (calculate_rule_based_price v d n m w s).breakdown.labour_charge
        = round2 ((m : ℚ) * estimate_job_hours v d * 25) ∧
      (calculate_rule_based_price v d n m w s).breakdown.stairs_charge
        = round2 ((s : ℚ) * 50) ∧
      (calculate_rule_based_price v d n m w s).breakdown.weekend_premium
        = round2 (if w then
            (250 + v * 35 + d * 2 + ((max (n - 1) 0 : ℤ) : ℚ) * 150
              + (m : ℚ) * estimate_job_hours v d * 25 + (s : ℚ) * 50)
              * (115/100 - 1)
          else 0) ∧
      (calculate_rule_based_price v d n m w s).total
        = round2 (max (if w then
            (250 + v * 35 + d * 2 + ((max (n - 1) 0 : ℤ) : ℚ) * 150
              + (m : ℚ) * estimate_job_hours v d * 25 + (s : ℚ) * 50)
            + (250 + v * 35 + d * 2 + ((max (n - 1) 0 : ℤ) : ℚ) * 150
              + (m : ℚ) * estimate_job_hours v d * 25 + (s : ℚ) * 50)
              * (115/100 - 1)
          else
            250 + v * 35 + d * 2 + ((max (n - 1) 0 : ℤ) : ℚ) * 150
              + (m : ℚ) * estimate_job_hours v d * 25 + (s : ℚ) * 50)
          200) ∧
      (google_distance_fields meters).1 = round1 (meters / 1000) ∧
      (google_distance_fields meters).2
        = round1 (meters / 1000 * (621371/1000000)) := by
  refine ⟨rfl, rfl, rfl, rfl, rfl, rfl, rfl, rfl, ?_, rfl, rfl⟩
  cases w <;> rfl

/-- C10: for non-negative volume and distance, `estimate_job_hours` is at
least 2.3, and it equals the raw sum
`max(v/15, 1) + max(d/30, 0.5) + 0.8·max(v/15, 1)` — the final floor at
`MIN_HOURS_ESTIMATE = 2.0` never changes the result. -/
theorem claim10_min_hours_unreachable (v d : ℚ) (hv : 0 ≤ v) (hd : 0 ≤ d) :
    23/10 ≤ estimate_job_hours v d ∧
    estimate_job_hours v d
      = max (v / 15) 1 + max (d / 30) (1/2) + (8/10) * max (v / 15) 1 := by
  have hL : (1 : ℚ) ≤ max (v / 15) 1 := le_max_right _ _
  have hD : (1/2 : ℚ) ≤ max (d / 30) (1/2) := le_max_right _ _
  have hsum : (23/10 : ℚ) ≤
      max (v / 15) 1 + max (d / 30) (1/2) + max (v / 15) 1 * (8/10) := by
    nlinarith
  constructor
  · unfold estimate_job_hours MIN_HOURS_ESTIMATE
    exact le_trans hsum (le_max_left _ _)
  · unfold estimate_job_hours MIN_HOURS_ESTIMATE
    rw [max_eq_left (by linarith)]
    ring

/-- Witness for C10 at `v = 0`, `d = 0`. -/
theorem claim10_witness :
    (0 : ℚ) ≤ 0 ∧ (23/10 : ℚ) ≤ estimate_job_hours 0 0 :=
  ⟨le_refl 0, (claim10_min_hours_unreachable 0 0 (le_refl 0) (le_refl 0)).1⟩

/-- C4: the Logistics Estimator's van-count thresholds (≤0 and ≤11 → 1
small van, ≤18 → 1 medium van, ≤35 → 1 large van, else ⌈v/35⌉ large vans
with `capacity_used_pct = round(v / (van_count·35) · 100)`), and the mover
step function (≤1 van → 2, 2 vans → 3, ≥3 vans → 4). -/
theorem claim4_logistics (v : ℚ) (vc : ℤ) :
    (v ≤ 0 → calculate_van_count v = ⟨1, "small", "1 × Small Van (SWB)", 0⟩) ∧
    ((0 < v → v ≤ 11 → (calculate_van_count v).van_count = 1 ∧
      (calculate_van_count v).van_type = "small") ∧
    (11 < v → v ≤ 18 → (calculate_van_count v).van_count = 1 ∧
      (calculate_van_count v).van_type = "medium") ∧
    (18 < v → v ≤ 35 → (calculate_van_count v).van_count = 1 ∧
      (calculate_van_count v).van_type = "large") ∧
    (35 < v → (calculate_van_count v).van_count = ⌈v / 35⌉ ∧
      (calculate_van_count v).van_type = "large" ∧
      (calculate_van_count v).capacity_used_pct
        = pyRoundInt (v / ((⌈v / 35⌉ : ℚ) * 35) * 100))) ∧
    ((vc ≤ 1 → calculate_movers vc v = 2) ∧
    (vc = 2 → calculate_movers vc v = 3) ∧
    (3 ≤ vc → calculate_movers vc v = 4)) := by
  unfold calculate_van_count calculate_movers SWB_VAN_CAPACITY_M3
    LWB_VAN_CAPACITY_M3 LUTON_VAN_CAPACITY_M3
  refine ⟨fun h => by rw [if_pos h], ⟨?_, ?_, ?_, ?_⟩, ?_, ?_, ?_⟩
  · intro h0 h11
    rw [if_neg (not_le.mpr h0), if_pos h11]
    exact ⟨rfl, rfl⟩
  · intro h11 h18
    rw [if_neg (by linarith), if_neg (not_le.mpr h11), if_pos h18]
    exact ⟨rfl, rfl⟩
  · intro h18 h35
    rw [if_neg (by linarith), if_neg (by linarith), if_neg (not_le.mpr h18),
      if_pos h35]
    exact ⟨rfl, rfl⟩
  · intro h35
    rw [if_neg (by linarith), if_neg (by linarith), if_neg (by linarith),
      if_neg (not_le.mpr h35)]
    exact ⟨rfl, rfl, rfl⟩
  · intro h
    rw [if_pos h]
  · intro h
    rw [if_neg (by omega), if_pos h]
  · intro h
    rw [if_neg (by omega), if_neg (by omega)]

/-- Witness for C4 at `v = 40` (two Luton vans) and `vc = 2` (three
movers). -/
theorem claim4_witness :
    (35 : ℚ) < 40 ∧ (calculate_van_count 40).van_count = ⌈(40 : ℚ) / 35⌉ ∧
      calculate_movers 2 40 = 3 :=
  ⟨by norm_num,
    (((claim4_logistics 40 2).2.1.2.2.2) (by norm_num)).1,
    ((claim4_logistics 40 2).2.2.2.1) rfl⟩

/-- C7: the Furniture Volume Estimator lower-cases and trims the label;
on an exact key match it returns that table volume; otherwise it returns
the volume of the first table entry (in insertion order) whose key is a
substring of the label or whose label is a substring of the key; otherwise
it returns the default 15.0 ft³ (it always returns a value). -/
theorem claim7_volume_estimator (s : String) :
    (∀ p, FURNITURE_VOLUMES.find? (fun q => q.1.data = normChars s) = some p →
      estimate_item_volume s = p.2) ∧
    (FURNITURE_VOLUMES.find? (fun q => q.1.data = normChars s) = none →
      ∀ p, FURNITURE_VOLUMES.find? (fun q =>
          containsSub q.1.data (normChars s)
            || containsSub (normChars s) q.1.data) = some p →
        estimate_item_volume s = p.2) ∧
    (FURNITURE_VOLUMES.find? (fun q => q.1.data = normChars s) = none →
      FURNITURE_VOLUMES.find? (fun q =>
          containsSub q.1.data (normChars s)
            || containsSub (normChars s) q.1.data) = none →
      estimate_item_volume s = 15) := by
  refine ⟨fun p hp => ?_, fun h1 p hp => ?_, fun h1 h2 => ?_⟩
  · unfold estimate_item_volume
    rw [hp]
  · unfold estimate_item_volume
    rw [h1, hp]
  · unfold estimate_item_volume
    rw [h1, h2]

/-- Witness for C7: "Sofa  " exact-matches the "sofa" entry (50 ft³),
"big sofa thing" fuzzy-matches it, and "xyzq" falls back to 15 ft³. -/
theorem claim7_witness :
    FURNITURE_VOLUMES.find? (fun q => q.1.data = normChars ("Sofa  "))
        = some ("sofa", 50) ∧
      estimate_item_volume ("Sofa  ") = 50 ∧
      FURNITURE_VOLUMES.find? (fun q => q.1.data = normChars ("xyzq")) = none ∧
      FURNITURE_VOLUMES.find? (fun q =>
          containsSub q.1.data (normChars ("xyzq"))
            || containsSub (normChars ("xyzq")) q.1.data) = none ∧
      estimate_item_volume ("xyzq") = 15 :=
  ⟨by decide,
    (claim7_volume_estimator ("Sofa  ")).1 ("sofa", 50) (by decide),
    by decide, by decide,
    (claim7_volume_estimator ("xyzq")).2.2 (by decide) (by decide)⟩

/-- C5: the Vision Response Parser — round-trip on
`"- 3-seater sofa (2)\n- armchair (1)"` (volumes 120.0 and 30.0 ft³,
total 150.0), empty input yields no items and total 0 without error, each
item's `volume_ft3` is its quantity times its estimated unit volume, a
bullet line without a parenthesised quantity yields the whole line as the
name with quantity 1, and a non-integer quantity text defaults to
quantity 1 without error. -/
theorem claim5_vision_response_parsing :
    parse_vision_text ("- 3-seater sofa (2)\n- armchair (1)")
        = ([⟨"3-seater sofa", 2, 120⟩, ⟨"armchair", 1, 30⟩], 150) ∧
    parse_vision_text ("") = ([], 0) ∧
    (∀ s : String, ∀ i ∈ (parse_vision_text s).1,
      i.volume_ft3 = estimate_item_volume i.label * (i.quantity : ℚ)) ∧
    (∀ line b : List Char, bulletBody? line = some b →
      (b.contains '(' && b.contains ')') = false →
      parseLine? line = some (String.mk b, 1)) ∧
    (∀ line b t : List Char, bulletBody? line = some b →
      qtyText? b = some t → pyIntParse? t = none →
      parseLine? line = some (String.mk (parsedName b), 1)) := by
  refine ⟨by with_unfolding_all decide, by with_unfolding_all decide,
    ?_, ?_, ?_⟩
  · intro s i hi
    unfold parse_vision_text at hi
    simp only [List.mem_map] at hi
    obtain ⟨p, _, rfl⟩ := hi
    obtain ⟨k, _, hk⟩ := estimate_item_volume_int p.1
    simp only [lineVolume, hk]
    exact round2_int_mul k p.2
  · intro line b hb hpar
    have hcond : ¬ ((b.contains '(' && b.contains ')') = true) := by
      rw [hpar]
      exact Bool.false_ne_true
    have hname : parsedName b = b := by
      unfold parsedName
      rw [if_neg hcond]
    have hqty : parsedQty b = 1 := by
      unfold parsedQty qtyText?
      rw [if_neg hcond]
    unfold parseLine?
    rw [hb]
    simp only [Option.map_some', hname, hqty]
  · intro line b t hb ht hparse
    have hqty : parsedQty b = 1 := by
      unfold parsedQty
      rw [ht]
      show (pyIntParse? t).getD 1 = 1
      rw [hparse]
      rfl
    unfold parseLine?
    rw [hb]
    simp only [Option.map_some', hqty]

/-- Witness for C5's universally-quantified parts: the product law at
`"- lamp"` (volume 3 = 1 × 3), the no-parenthesis case at `"- lamp"`, and
the non-integer quantity default at `"- sofa (x)"`. -/
theorem claim5_witness :
    (⟨"lamp", 1, 3⟩ : DetectedItem) ∈ (parse_vision_text ("- lamp")).1 ∧
      (3 : ℚ) = estimate_item_volume ("lamp") * ((1 : ℤ) : ℚ) ∧
      bulletBody? ("- lamp".data) = some ("lamp".data) ∧
      (("lamp".data).contains '(' && ("lamp".data).contains ')') = false ∧
      parseLine? ("- lamp".data) = some (String.mk ("lamp".data), 1) ∧
      qtyText? ("sofa (x)".data) = some ("x".data) ∧
      pyIntParse? ("x".data) = none ∧
      parseLine? ("- sofa (x)".data)
        = some (String.mk (parsedName ("sofa (x)".data)), 1) :=
  ⟨by with_unfolding_all decide,
    (claim5_vision_response_parsing.2.2.1 ("- lamp") ⟨"lamp", 1, 3⟩
      (by with_unfolding_all decide)),
    by decide, by decide,
    (claim5_vision_response_parsing.2.2.2.1 ("- lamp".data) ("lamp".data)
      (by decide) (by decide)),
    by decide, by decide,
    (claim5_vision_response_parsing.2.2.2.2 ("- sofa (x)".data)
      ("sofa (x)".data) ("x".data) (by decide) (by decide) (by decide))⟩

/-- C9's counterexample: the vision line `"- sofa (0)"` produces a
DetectedItem with quantity 0, so `quantity ≥ 1` does not hold for every
possible input string. -/
theorem claim9_counterexample :
    (parse_vision_text ("- sofa (0)")).1.map DetectedItem.quantity = [0] ∧
      ¬ (1 : ℤ) ≤ 0 := by
  refine ⟨by with_unfolding_all decide, by decide⟩

/-- C9 amended: for every vision-response input all of whose parsed bullet
quantities are ≥ 1 (in particular whenever each parenthesised quantity
text fails integer parsing or parses to an integer ≥ 1), every
DetectedItem satisfies `quantity ≥ 1` and `volume_ft3 ≥ 0`. -/
theorem claim9_amended (s : String)
    (h : ((splitOnNl s.data).all (fun line =>
        match bulletBody? line with
        | some b => decide (1 ≤ parsedQty b)
        | none => true)) = true) :
    ∀ i ∈ (parse_vision_text s).1, 1 ≤ i.quantity ∧ 0 ≤ i.volume_ft3 := by
  intro i hi
  unfold parse_vision_text at hi
  simp only [List.mem_map] at hi
  obtain ⟨p, hp, rfl⟩ := hi
  simp only [List.mem_filterMap] at hp
  obtain ⟨line, hline, hparse⟩ := hp
  unfold parseLine? at hparse
  cases hb : bulletBody? line with
  | none => rw [hb] at hparse; simp at hparse
  | some b =>
    rw [hb] at hparse
    simp only [Option.map_some'] at hparse
    have hq : 1 ≤ parsedQty b := by
      have := List.all_eq_true.mp h line hline
      rw [hb] at this
      exact of_decide_eq_true this
    obtain ⟨k, hk1, hk⟩ := estimate_item_volume_int (String.mk (parsedName b))
    have hp2 : ((⟨parsedName b⟩ : String), parsedQty b) = p :=
      Option.some.inj hparse
    subst hp2
    constructor
    · exact hq
    · show 0 ≤ round2 (lineVolume ((⟨parsedName b⟩ : String), parsedQty b))
      apply round2_nonneg
      show 0 ≤ estimate_item_volume (⟨parsedName b⟩ : String) * ((parsedQty b : ℤ) : ℚ)
      rw [hk]
      have h0k : (0 : ℚ) ≤ (k : ℚ) := by exact_mod_cast le_trans zero_le_one hk1
      have h0q : (0 : ℚ) ≤ ((parsedQty b : ℤ) : ℚ) := by
        exact_mod_cast le_trans zero_le_one hq
      positivity

/-- Witness for C9 amended at `"- sofa (2)"`. -/
theorem claim9_witness :
    ((splitOnNl ("- sofa (2)".data)).all (fun line =>
        match bulletBody? line with
        | some b => decide (1 ≤ parsedQty b)
        | none => true)) = true ∧
      (1 ≤ (⟨"sofa", 2, 100⟩ : DetectedItem).quantity ∧
        0 ≤ (⟨"sofa", 2, 100⟩ : DetectedItem).volume_ft3) :=
  ⟨by decide,
    claim9_amended ("- sofa (2)") (by decide) ⟨"sofa", 2, 100⟩
      (by with_unfolding_all decide)⟩

/-- C6's counterexample: the aggregator re-rounds each merged volume to 2
decimal places, so "volumes summed" fails literally for a volume that
carries more than 2 decimals: a single item of 0.005 ft³ is reported as
0.0 ft³ (banker's rounding), not 0.005. -/
theorem claim6_counterexample :
    (aggregate_items_and_volume [⟨[⟨"sofa", 1, 1/200⟩], 1/200⟩]).1.map
        (fun a => a.estimated_volume_ft3) = [0] ∧
      sumVol (allItems [⟨[⟨"sofa", 1, 1/200⟩], 1/200⟩]) ("sofa") = 1/200 ∧
      (0 : ℚ) ≠ 1/200 := by
  refine ⟨by with_unfolding_all decide, by with_unfolding_all decide,
    by norm_num⟩

/-- C6 amended: the Item Aggregator.  Whenever the flattened item stream is empty
— regardless of photo count — it returns the single fallback item
("Miscellaneous items", quantity 10, 30.0 ft³) with total volume forced to
30.0.  Otherwise its total volume is the sum of the per-photo
`total_volume_ft3` fields (not recomputed from items), its item names are
the labels in first-seen order, and each output item's quantity and volume
are the sums over all input items with exactly that label.  (The volume
hypothesis records that per-photo volumes carry at most 2 decimal places,
as the Vision Response Parser guarantees; the aggregator re-rounds the
summed volume, which is the identity on such inputs.) -/
theorem claim6_aggregator (rs : List PhotoResult)
    (h2dp : ∀ i ∈ allItems rs, ∃ k : ℤ, i.volume_ft3 * 100 = (k : ℚ)) :
    (allItems rs = [] →
      aggregate_items_and_volume rs = ([fallbackAiItem], 30)) ∧
    (allItems rs ≠ [] →
      (aggregate_items_and_volume rs).2
          = (rs.map (fun r => r.total_volume_ft3)).sum ∧
      (aggregate_items_and_volume rs).1.map (fun a => a.name)
          = firstSeen ((allItems rs).map (fun i => i.label)) ∧
      ∀ l ∈ firstSeen ((allItems rs).map (fun i => i.label)),
        ((aggregate_items_and_volume rs).1.find? (fun a => a.name = l)).map
            (fun a => (a.quantity, a.estimated_volume_ft3))
          = some (sumQty (allItems rs) l, sumVol (allItems rs) l)) := by
  constructor
  · intro hnil
    unfold aggregate_items_and_volume
    rw [hnil]
    rfl
  · intro hne
    have hmerged_ne : (allItems rs).foldl insertLabel [] ≠ [] := by
      intro h0
      have hk := labelKeys_foldl (allItems rs) []
      rw [h0] at hk
      have hk2 : firstSeenGo [] ((allItems rs).map fun i => i.label) = [] :=
        hk.symm
      have h1 := firstSeenGo_eq_nil ((allItems rs).map fun i => i.label) [] hk2
      exact hne (List.map_eq_nil_iff.mp h1.2)
    have hisEmpty : (((allItems rs).foldl insertLabel []).map
        (fun p => AiItem.mk p.1 p.2.1 none (round2 p.2.2))).isEmpty = false := by
      rw [List.isEmpty_eq_false]
      intro h0
      exact hmerged_ne (List.map_eq_nil_iff.mp h0)
    have hagg : aggregate_items_and_volume rs =
        ((((allItems rs).foldl insertLabel []).map
          (fun p => AiItem.mk p.1 p.2.1 none (round2 p.2.2))),
         (rs.map (fun r => r.total_volume_ft3)).sum) := by
      unfold aggregate_items_and_volume
      rw [if_neg (by rw [hisEmpty]; exact Bool.false_ne_true)]
    refine ⟨by rw [hagg], ?_, ?_⟩
    · rw [hagg]
      show (((allItems rs).foldl insertLabel []).map
          (fun p => AiItem.mk p.1 p.2.1 none (round2 p.2.2))).map (fun a => a.name)
        = firstSeen ((allItems rs).map (fun i => i.label))
      rw [List.map_map]
      exact labelKeys_foldl (allItems rs) []
    · intro l hl
      have hlmem : l ∈ (allItems rs).map (fun i => i.label) := by
        have hl2 : l ∈ firstSeenGo [] ((allItems rs).map fun i => i.label) := hl
        rcases mem_firstSeenGo ((allItems rs).map fun i => i.label) [] l hl2
          with h0 | h0
        · simp at h0
        · exact h0
      have hany : ((allItems rs).any fun i => i.label = l) = true := by
        rw [List.any_eq_true]
        obtain ⟨i, hi, hil⟩ := List.mem_map.mp hlmem
        exact ⟨i, hi, by simp [hil]⟩
      have hlook : lookupQV ((allItems rs).foldl insertLabel []) l
          = some (sumQty (allItems rs) l, sumVol (allItems rs) l) := by
        rw [lookupQV_foldl]
        show (if ((allItems rs).any fun i => i.label = l) = true then _ else _)
          = _
        rw [if_pos hany]
      obtain ⟨p0, hp0, hp0v⟩ := Option.map_eq_some'.mp hlook
      rw [hagg]
      have hcomp : (((allItems rs).foldl insertLabel []).map
            (fun p => AiItem.mk p.1 p.2.1 none (round2 p.2.2))).find?
              (fun a => a.name = l)
          = (((allItems rs).foldl insertLabel []).find?
              (fun p => p.1 = l)).map
              (fun p => AiItem.mk p.1 p.2.1 none (round2 p.2.2)) := by
        rw [List.find?_map]
        rfl
      show ((((allItems rs).foldl insertLabel []).map
          (fun p => AiItem.mk p.1 p.2.1 none (round2 p.2.2))).find?
            (fun a => a.name = l)).map
          (fun a => (a.quantity, a.estimated_volume_ft3))
        = some (sumQty (allItems rs) l, sumVol (allItems rs) l)
      rw [hcomp, hp0]
      show some (p0.2.1, round2 p0.2.2)
        = some (sumQty (allItems rs) l, sumVol (allItems rs) l)
      rw [hp0v]
      obtain ⟨k, hk⟩ := sumVol_int (allItems rs) l h2dp
      rw [round2_of_hundredths (sumVol (allItems rs) l) k hk]

/-- Witness for C6 on the two-photo "sofa" example: total 100.0, one
merged item. -/
theorem claim6_witness :
    (allItems [⟨[⟨"sofa", 1, 50⟩], 50⟩, ⟨[⟨"sofa", 1, 50⟩], 50⟩] ≠ []) ∧
      (aggregate_items_and_volume
          [⟨[⟨"sofa", 1, 50⟩], 50⟩, ⟨[⟨"sofa", 1, 50⟩], 50⟩]).2
        = (([⟨[⟨"sofa", 1, 50⟩], 50⟩,
            ⟨[⟨"sofa", 1, 50⟩], 50⟩] : List PhotoResult).map
            (fun r => r.total_volume_ft3)).sum ∧
      (aggregate_items_and_volume
          [⟨[⟨"sofa", 1, 50⟩], 50⟩, ⟨[⟨"sofa", 1, 50⟩], 50⟩]).1.map
          (fun a => a.name)
        = firstSeen ((allItems [⟨[⟨"sofa", 1, 50⟩], 50⟩,
            ⟨[⟨"sofa", 1, 50⟩], 50⟩]).map (fun i => i.label)) := by
  have h2dp : ∀ i ∈ allItems [⟨[⟨"sofa", 1, 50⟩], 50⟩,
      (⟨[⟨"sofa", 1, 50⟩], 50⟩ : PhotoResult)],
      ∃ k : ℤ, i.volume_ft3 * 100 = (k : ℚ) := by
    intro i hi
    simp [allItems] at hi
    rcases hi with rfl | rfl <;> exact ⟨5000, by norm_num⟩
  have hne : allItems [⟨[⟨"sofa", 1, 50⟩], 50⟩,
      (⟨[⟨"sofa", 1, 50⟩], 50⟩ : PhotoResult)] ≠ [] := by
    simp [allItems]
  have h := (claim6_aggregator _ h2dp).2 hne
  exact ⟨hne, h.1, h.2.1⟩

end Movco
